import Mathlib

/-!
Verification of the mjpeg_rs library (src/lib.rs): a frame codec wrapping JPEG
bytes into multipart parts, a capacity-1 hand-off channel between one producer
and the pool of connection handler threads, and the listener loop.  Byte
sequences (`Vec<u8>`) are modelled as `List Nat`; the crossbeam bounded(1)
channel is modelled as an explicit single-slot state.
-/

namespace MjpegRs

/-- The bytes of an ASCII string literal. -/
def asciiBytes (s : String) : List Nat := s.data.map Char.toNat

/-- Decimal digits of `n` (most significant first), computed with explicit
fuel so that the definition is structural.  `digitsAux fuel n` agrees with
the usual decimal expansion whenever `n ≤ fuel`. -/
def digitsAux : Nat → Nat → List Nat
  | 0, n => [n]
  | fuel + 1, n => if n < 10 then [n] else digitsAux fuel (n / 10) ++ [n % 10]

/-- Decimal digits of `n`, most significant first: the digit list produced by
Rust's `format!("{}", n)`. -/
def decimalDigits (n : Nat) : List Nat := digitsAux n n

/-- ASCII bytes of the decimal representation of `n`. -/
def digitBytes (n : Nat) : List Nat := (decimalDigits n).map (· + 48)

/-- Rust type `struct Frame \x7b header: Vec<u8>, body: Vec<u8> \x7d`. -/
structure Frame where
  header : List Nat
  body : List Nat
deriving DecidableEq

/-- The fixed bytes of the frame header before the decimal length
(`"\r\n--MJPEGBOUNDARY\r\nContent-Length: "`). -/
def clPre : List Nat := asciiBytes "\x0d\x0a--MJPEGBOUNDARY\x0d\x0aContent-Length: "

/-- The fixed bytes of the frame header after the decimal length
(`"\r\nX-Timestamp: 0.000000\r\n\r\n"`). -/
def clSuf : List Nat := asciiBytes "\x0d\x0aX-Timestamp: 0.000000\x0d\x0a\x0d\x0a"

/-- Codec `Frame::from_jpeg_buf`: the header is the bytes of
`format!("\r\n--MJPEGBOUNDARY\r\nContent-Length: {}\r\nX-Timestamp: 0.000000\r\n\r\n", buf.len())`
and the body is the input buffer unchanged. -/
def Frame.from_jpeg_buf (buf : List Nat) : Frame :=
  { header := clPre ++ digitBytes buf.length ++ clSuf
    body := buf }

theorem Frame.body_from_jpeg_buf (buf : List Nat) : (Frame.from_jpeg_buf buf).body = buf :=
  rfl

/-- Whether a byte is an ASCII decimal digit. -/
def isDigitByte (b : Nat) : Bool := decide (48 ≤ b) && decide (b ≤ 57)

/-- Numeric value of a run of ASCII digit bytes, most significant first. -/
def digitsVal (bs : List Nat) : Nat := bs.foldl (fun a b => a * 10 + (b - 48)) 0

/-- Spec §8's `decode`: read the declared `Content-Length` back out of a frame
header of the fixed format produced by `Frame.from_jpeg_buf`. -/
def decodeContentLength (h : List Nat) : Option Nat :=
  if h.take clPre.length = clPre then
    some (digitsVal ((h.drop clPre.length).takeWhile isDigitByte))
  else none

example : decimalDigits 10 = [1, 0] := by decide
example : decimalDigits 0 = [0] := by decide
example : decimalDigits 137 = [1, 3, 7] := by decide
example : decodeContentLength (Frame.from_jpeg_buf [9, 9, 9]).header = some 3 := by decide

theorem digitsAux_lt : ∀ (fuel n : Nat), n ≤ fuel → ∀ d ∈ digitsAux fuel n, d < 10 := by
  intro fuel
  induction fuel with
  | zero =>
    intro n hn d hd
    simp [digitsAux] at hd
    omega
  | succ f ih =>
    intro n hn d hd
    by_cases h10 : n < 10
    · simp [digitsAux, h10] at hd
      omega
    · simp [digitsAux, h10] at hd
      rcases hd with hd | hd
      · exact ih (n / 10) (by omega) d hd
      · omega

theorem digitsAux_foldl : ∀ (fuel n a : Nat), n ≤ fuel →
    ((digitsAux fuel n).map (· + 48)).foldl (fun x b => x * 10 + (b - 48)) a
      = a * 10 ^ (digitsAux fuel n).length + n := by
  intro fuel
  induction fuel with
  | zero =>
    intro n a hn
    have hz : n = 0 := by omega
    subst hz
    simp [digitsAux]
  | succ f ih =>
    intro n a hn
    by_cases h10 : n < 10
    · simp [digitsAux, h10]
    · simp only [digitsAux, if_neg h10, List.map_append, List.foldl_append,
        List.length_append, List.length_map]
      rw [ih (n / 10) a (by omega)]
      simp only [List.map_cons, List.map_nil, List.foldl_cons, List.foldl_nil,
        List.length_cons, List.length_nil]
      have hp : (10 : Nat) ^ ((digitsAux f (n / 10)).length + (0 + 1))
          = 10 ^ (digitsAux f (n / 10)).length * 10 := by
        rw [Nat.zero_add, pow_succ]
      rw [hp, ← Nat.mul_assoc]
      set m := a * 10 ^ (digitsAux f (n / 10)).length with hm
      omega

theorem digitBytes_val (n : Nat) : digitsVal (digitBytes n) = n := by
  unfold digitsVal digitBytes decimalDigits
  rw [digitsAux_foldl n n 0 le_rfl]
  simp

theorem digitBytes_isDigit (n : Nat) : ∀ b ∈ digitBytes n, isDigitByte b = true := by
  intro b hb
  unfold digitBytes decimalDigits at hb
  simp only [List.mem_map] at hb
  obtain ⟨d, hd, rfl⟩ := hb
  have hlt := digitsAux_lt n n le_rfl d hd
  simp only [isDigitByte, Bool.and_eq_true, decide_eq_true_eq]
  omega

theorem takeWhile_append_digits (p : Nat → Bool) :
    ∀ (l : List Nat), (∀ x ∈ l, p x = true) → ∀ (y : Nat) (r : List Nat), p y = false →
      (l ++ y :: r).takeWhile p = l := by
  intro l
  induction l with
  | nil =>
    intro _ y r hy
    simp [List.takeWhile_cons, hy]
  | cons a t ih =>
    intro h y r hy
    have ha : p a = true := h a (by simp)
    simp [List.takeWhile_cons, ha, ih (fun x hx => h x (by simp [hx])) y r hy]

/-- C1: `Frame.from_jpeg_buf` (the codec's `encode`) keeps the body identical to
the input, builds the header as the fixed text block
`"\r\n--MJPEGBOUNDARY\r\nContent-Length: <len>\r\nX-Timestamp: 0.000000\r\n\r\n"`
with the literal `0.000000` timestamp placeholder, and the declared
`Content-Length` read back out of the header equals the input length.  The
embedding is a total function on arbitrary byte lists, so encoding is
deterministic and never fails. -/
theorem frame_encode_roundtrip (buf : List Nat) :
    (Frame.from_jpeg_buf buf).body = buf
    ∧ (Frame.from_jpeg_buf buf).header
        = asciiBytes "\x0d\x0a--MJPEGBOUNDARY\x0d\x0aContent-Length: "
          ++ digitBytes buf.length
          ++ asciiBytes "\x0d\x0aX-Timestamp: 0.000000\x0d\x0a\x0d\x0a"
    ∧ decodeContentLength (Frame.from_jpeg_buf buf).header = some buf.length := by
  refine ⟨rfl, rfl, ?_⟩
  show decodeContentLength (clPre ++ digitBytes buf.length ++ clSuf) = some buf.length
  unfold decodeContentLength
  rw [List.append_assoc, List.take_left, if_pos rfl, List.drop_left]
  have hsuf : clSuf = 13 :: asciiBytes "\x0aX-Timestamp: 0.000000\x0d\x0a\x0d\x0a" := by
    decide
  rw [hsuf, takeWhile_append_digits isDigitByte (digitBytes buf.length)
    (digitBytes_isDigit buf.length) 13 _ (by decide), digitBytes_val]

/-- State of the `crossbeam_channel::bounded(1)` channel created by
`MJpeg::new`: the single slot, and whether the receiving side still exists
(`receiverAlive = false` models every `Receiver` handle having been dropped,
i.e. the channel is disconnected from the consumer side). -/
structure ChanState where
  slot : Option Frame
  receiverAlive : Bool
deriving DecidableEq

/-- Error type `crossbeam_channel::TrySendError`. -/
inductive TrySendErr (α : Type) where
  | Full (x : α)
  | Disconnected (x : α)
deriving DecidableEq

/-- Model of `Sender::try_send` (crossbeam) on a bounded(1) channel: fails with
`Disconnected` when the receiving side is gone, fails with `Full` without
touching the slot when the slot is occupied, and otherwise deposits the
message. -/
def trySend (s : ChanState) (f : Frame) : ChanState × Option (TrySendErr Frame) :=
  if s.receiverAlive = false then (s, some (.Disconnected f))
  else
    match s.slot with
    | some _ => (s, some (.Full f))
    | none => ({ s with slot := some f }, none)

/-- Result of `Sender::send` on a bounded(1) channel, as observed from the
state at the moment of the call: it completes at once when the slot is free,
blocks (waiting for a drain) when the slot is occupied, and returns
`SendError` when the receiving side is gone. -/
inductive SendOutcome where
  | completes (s' : ChanState)
  | blocks
  | err (payload : List Nat)
deriving DecidableEq

/-- Method `MJpeg::update_jpeg`: encode the buffer with `Frame::from_jpeg_buf`, send
it blocking, and map `SendError(frame)` back to `SendError(frame.body)`. -/
def MJpeg.update_jpeg (s : ChanState) (buf : List Nat) : SendOutcome :=
  if s.receiverAlive = false then .err (Frame.from_jpeg_buf buf).body
  else
    match s.slot with
    | none => .completes { s with slot := some (Frame.from_jpeg_buf buf) }
    | some _ => .blocks

/-- Method `MJpeg::try_update_jpeg`: encode the buffer, `try_send` it, and map both
error variants back to carry `frame.body` instead of the whole frame. -/
def MJpeg.try_update_jpeg (s : ChanState) (buf : List Nat) :
    ChanState × Option (TrySendErr (List Nat)) :=
  match trySend s (Frame.from_jpeg_buf buf) with
  | (s', none) => (s', none)
  | (s', some (.Disconnected f)) => (s', some (.Disconnected f.body))
  | (s', some (.Full f)) => (s', some (.Full f.body))

/-- Method `MJpeg::is_full`: `self.send.is_full()`, true iff the single slot holds a
message. -/
def MJpeg.is_full (s : ChanState) : Bool := s.slot.isSome

/-- Number of unconsumed frames held by the relay. -/
def slotCount (s : ChanState) : Nat := if s.slot.isSome then 1 else 0

/-- A blocking publish of frame `f` finishes (the `send` call returns `Ok`)
going from channel state `s` to `s'`.  It requires a live receiver side and an
empty slot: while the slot is occupied the call stays blocked. -/
def publishCompletes (s : ChanState) (f : Frame) (s' : ChanState) : Prop :=
  s.receiverAlive = true ∧ s.slot = none ∧ s' = { s with slot := some f }

/-- One observable transition of the relay: a blocking publish completing, a
non-blocking publish attempt, a consumer receive draining the slot, or the
relay being torn down (receiver side dropped). -/
inductive ChanStep : ChanState → ChanState → Prop
  | publishDone (s : ChanState) (f : Frame) (halive : s.receiverAlive = true)
      (hempty : s.slot = none) : ChanStep s { s with slot := some f }
  | tryPublish (s : ChanState) (buf : List Nat) :
      ChanStep s (MJpeg.try_update_jpeg s buf).1
  | recv (s : ChanState) (f : Frame) (h : s.slot = some f) :
      ChanStep s { s with slot := none }
  | close (s : ChanState) : ChanStep s { s with receiverAlive := false }

/-- Relay states reachable from the state `MJpeg::new` creates (empty
bounded(1) channel, receiver held inside the `MJpeg` value). -/
inductive ChanReachable : ChanState → Prop
  | init : ChanReachable ⟨none, true⟩
  | step (s s' : ChanState) : ChanReachable s → ChanStep s s' → ChanReachable s'

/-- C2: in every reachable relay state the single slot holds at most one
unconsumed frame; while the slot is occupied a blocking publish cannot
complete (it waits for a drain), and a non-blocking publish fails immediately,
leaves the slot's contents unchanged, and — with the receiver alive — reports
`Full` carrying the payload. -/
theorem relay_capacity_one (s : ChanState) (hreach : ChanReachable s) :
    slotCount s ≤ 1
    ∧ (s.slot.isSome = true → ∀ f s', ¬ publishCompletes s f s')
    ∧ (s.slot.isSome = true → ∀ buf, (MJpeg.try_update_jpeg s buf).1 = s
        ∧ (MJpeg.try_update_jpeg s buf).2 ≠ none)
    ∧ (s.slot.isSome = true → s.receiverAlive = true →
        ∀ buf, MJpeg.try_update_jpeg s buf = (s, some (TrySendErr.Full buf))) := by
  refine ⟨?_, ?_, ?_, ?_⟩
  · unfold slotCount
    split <;> omega
  · intro hsome f s' hc
    rcases hc with ⟨_, hnone, _⟩
    rw [hnone] at hsome
    simp at hsome
  · intro hsome buf
    obtain ⟨g, hg⟩ := Option.isSome_iff_exists.mp hsome
    unfold MJpeg.try_update_jpeg trySend
    by_cases halive : s.receiverAlive = false <;> simp [halive, hg]
  · intro hsome halive buf
    obtain ⟨g, hg⟩ := Option.isSome_iff_exists.mp hsome
    unfold MJpeg.try_update_jpeg trySend
    simp [halive, hg, Frame.body_from_jpeg_buf]

/-- C2 witness: instantiated at the reachable occupied state obtained by one
completed publish from the initial state. -/
theorem relay_capacity_one_witness :
    slotCount ⟨some (Frame.from_jpeg_buf [7]), true⟩ ≤ 1
    ∧ ((⟨some (Frame.from_jpeg_buf [7]), true⟩ : ChanState).slot.isSome = true →
        ∀ f s', ¬ publishCompletes ⟨some (Frame.from_jpeg_buf [7]), true⟩ f s')
    ∧ ((⟨some (Frame.from_jpeg_buf [7]), true⟩ : ChanState).slot.isSome = true →
        ∀ buf, (MJpeg.try_update_jpeg ⟨some (Frame.from_jpeg_buf [7]), true⟩ buf).1
            = ⟨some (Frame.from_jpeg_buf [7]), true⟩
          ∧ (MJpeg.try_update_jpeg ⟨some (Frame.from_jpeg_buf [7]), true⟩ buf).2 ≠ none)
    ∧ ((⟨some (Frame.from_jpeg_buf [7]), true⟩ : ChanState).slot.isSome = true →
        (⟨some (Frame.from_jpeg_buf [7]), true⟩ : ChanState).receiverAlive = true →
        ∀ buf, MJpeg.try_update_jpeg ⟨some (Frame.from_jpeg_buf [7]), true⟩ buf
          = (⟨some (Frame.from_jpeg_buf [7]), true⟩, some (TrySendErr.Full buf))) :=
  relay_capacity_one ⟨some (Frame.from_jpeg_buf [7]), true⟩
    (ChanReachable.step _ _ ChanReachable.init
      (ChanStep.publishDone ⟨none, true⟩ (Frame.from_jpeg_buf [7]) rfl rfl))

/-- C3: starting from the empty relay, two successive non-blocking publishes
with no intervening receive: the first succeeds, the second fails with `Full`
carrying back exactly the raw payload bytes `P2` (not the encoded frame). -/
theorem try_publish_twice (P1 P2 : List Nat) :
    (MJpeg.try_update_jpeg ⟨none, true⟩ P1).2 = none
    ∧ MJpeg.try_update_jpeg (MJpeg.try_update_jpeg ⟨none, true⟩ P1).1 P2
        = ((MJpeg.try_update_jpeg ⟨none, true⟩ P1).1, some (TrySendErr.Full P2)) := by
  constructor
  · simp [MJpeg.try_update_jpeg, trySend]
  · simp [MJpeg.try_update_jpeg, trySend, Frame.body_from_jpeg_buf]

/-- C4: with the channel closed (receiver side gone), the blocking publish
fails with an error carrying back exactly the original payload bytes, and the
non-blocking publish returns `Disconnected` carrying the payload, leaving the
state unchanged: the payload is never silently lost on closure. -/
theorem publish_closed_returns_payload (s : ChanState) (buf : List Nat)
    (h : s.receiverAlive = false) :
    MJpeg.update_jpeg s buf = SendOutcome.err buf
    ∧ (MJpeg.try_update_jpeg s buf).2 = some (TrySendErr.Disconnected buf)
    ∧ (MJpeg.try_update_jpeg s buf).1 = s := by
  refine ⟨?_, ?_, ?_⟩
  · unfold MJpeg.update_jpeg
    rw [if_pos h]
    rfl
  · unfold MJpeg.try_update_jpeg trySend
    rw [h]
    simp [Frame.body_from_jpeg_buf]
  · unfold MJpeg.try_update_jpeg trySend
    rw [h]
    simp

/-- C4 witness at a concrete closed state. -/
theorem publish_closed_returns_payload_witness :
    MJpeg.update_jpeg ⟨none, false⟩ [1, 2, 3] = SendOutcome.err [1, 2, 3]
    ∧ (MJpeg.try_update_jpeg ⟨none, false⟩ [1, 2, 3]).2
        = some (TrySendErr.Disconnected [1, 2, 3])
    ∧ (MJpeg.try_update_jpeg ⟨none, false⟩ [1, 2, 3]).1 = ⟨none, false⟩ :=
  publish_closed_returns_payload ⟨none, false⟩ [1, 2, 3] rfl

/-- C5: `is_full` (the spec's `is_backlogged`) is true iff the slot holds an
unconsumed frame; it is true immediately after any successful publish
(blocking or not) and false immediately after a receive drains the slot. -/
theorem is_full_iff_backlogged (s : ChanState) :
    (MJpeg.is_full s = true ↔ ∃ f, s.slot = some f)
    ∧ (∀ buf s', MJpeg.try_update_jpeg s buf = (s', none) → MJpeg.is_full s' = true)
    ∧ (∀ buf s', MJpeg.update_jpeg s buf = SendOutcome.completes s' →
        MJpeg.is_full s' = true)
    ∧ (∀ f, s.slot = some f → MJpeg.is_full { s with slot := none } = false) := by
  refine ⟨?_, ?_, ?_, ?_⟩
  · simp [MJpeg.is_full, Option.isSome_iff_exists]
  · intro buf s' hok
    unfold MJpeg.try_update_jpeg trySend at hok
    by_cases halive : s.receiverAlive = false
    · simp [halive] at hok
    · rcases hslot : s.slot with _ | g
      · simp [halive, hslot] at hok
        rw [← hok]
        simp [MJpeg.is_full]
      · simp [halive, hslot] at hok
  · intro buf s' hok
    unfold MJpeg.update_jpeg at hok
    by_cases halive : s.receiverAlive = false
    · simp [halive] at hok
    · rcases hslot : s.slot with _ | g
      · simp [halive, hslot] at hok
        rw [← hok]
        simp [MJpeg.is_full]
      · simp [halive, hslot] at hok
  · intro f _
    simp [MJpeg.is_full]

/-- C5 witness: the slot is reported backlogged right after a successful
non-blocking publish from the empty relay, and empty right after a drain. -/
theorem is_full_iff_backlogged_witness :
    MJpeg.is_full (MJpeg.try_update_jpeg ⟨none, true⟩ [5]).1 = true
    ∧ MJpeg.is_full ⟨none, true⟩ = false :=
  ⟨(is_full_iff_backlogged ⟨none, true⟩).2.1 [5] _ rfl,
   (is_full_iff_backlogged ⟨some (Frame.from_jpeg_buf [5]), true⟩).2.2.2
     (Frame.from_jpeg_buf [5]) rfl⟩

/-- Struct `pub struct MJpeg`: holds the `Sender` and — decisive for C10 — the
channel's sole `Receiver`, wrapped in `Arc<Mutex<..>>`, inside the same value.
While the `MJpeg` value is alive the receiver handle therefore exists, which
the proof field `recvHeld` records. -/
structure MJpeg where
  relay : ChanState
  recvHeld : relay.receiverAlive = true

/-- C10: while the `MJpeg` publisher value is alive its relay's receiver side
cannot have been dropped, so the `Disconnected`/`SendError` branches of both
publish operations are unreachable: the blocking publish either completes or
blocks (never errors), and the non-blocking publish returns success or `Full`
with the payload, whether or not any connection exists. -/
theorem publisher_never_disconnected (m : MJpeg) (buf : List Nat) :
    (∀ p, MJpeg.update_jpeg m.relay buf ≠ SendOutcome.err p)
    ∧ ((MJpeg.try_update_jpeg m.relay buf).2 = none
        ∨ (MJpeg.try_update_jpeg m.relay buf).2 = some (TrySendErr.Full buf)) := by
  have halive := m.recvHeld
  constructor
  · intro p
    unfold MJpeg.update_jpeg
    rcases hslot : m.relay.slot with _ | g <;> simp [halive, hslot]
  · unfold MJpeg.try_update_jpeg trySend
    rcases hslot : m.relay.slot with _ | g <;>
      simp [halive, hslot, Frame.body_from_jpeg_buf]

/-- The handshake bytes `MJpeg::run` writes to an accepted socket before any
frame: exactly
`b"HTTP/1.1 200 OK\r\nContent-Type: multipart/x-mixed-replace;boundary=MJPEGBOUNDARY\r\n"`
(note: no terminating blank line — the leading `\r\n` of every frame header
supplies it). -/
def handshakeBytes : List Nat :=
  asciiBytes
    "HTTP/1.1 200 OK\x0d\x0aContent-Type: multipart/x-mixed-replace;boundary=MJPEGBOUNDARY\x0d\x0a"

/-- The bytes the streaming loop writes for one frame: header then body. -/
def frameWireBytes (f : Frame) : List Nat := f.header ++ f.body

/-- All bytes written to one viewer's socket by `MJpeg::run`'s handler after
the handshake and the given payloads, each received in turn and serialized. -/
def viewerBytes (payloads : List (List Nat)) : List Nat :=
  handshakeBytes ++ (payloads.map (fun p => frameWireBytes (Frame.from_jpeg_buf p))).flatten

/-- C6 counterexample: for the concrete 10-byte payload of ten zero bytes, the
bytes actually written are NOT the claimed preamble ending in a terminating
blank line followed by the full frame header and the payload — the code's
handshake ends after the `Content-Type` line's single `\r\n`, with no blank
line of its own. -/
theorem viewer_preamble_counterexample :
    viewerBytes [List.replicate 10 0]
      ≠ asciiBytes
          "HTTP/1.1 200 OK\x0d\x0aContent-Type: multipart/x-mixed-replace;boundary=MJPEGBOUNDARY\x0d\x0a\x0d\x0a"
        ++ asciiBytes
            "\x0d\x0a--MJPEGBOUNDARY\x0d\x0aContent-Length: 10\x0d\x0aX-Timestamp: 0.000000\x0d\x0a\x0d\x0a"
        ++ List.replicate 10 0 := by
  decide

/-- C6 (amended): the first bytes written to a viewer's socket are exactly the
status line and `Content-Type` header, each ending in `\r\n`, with NO extra
terminating blank line (the blank line separating headers from the first part
is supplied by the leading `\r\n` of the frame header); after one 10-byte
payload is published the next bytes are the full multipart frame header with
`Content-Length: 10` followed by the 10 payload bytes, in that order. -/
theorem viewer_first_bytes (p : List Nat) (h : p.length = 10) :
    viewerBytes [p]
      = handshakeBytes
        ++ asciiBytes
            "\x0d\x0a--MJPEGBOUNDARY\x0d\x0aContent-Length: 10\x0d\x0aX-Timestamp: 0.000000\x0d\x0a\x0d\x0a"
        ++ p := by
  have hdr : clPre ++ digitBytes 10 ++ clSuf
      = asciiBytes
          "\x0d\x0a--MJPEGBOUNDARY\x0d\x0aContent-Length: 10\x0d\x0aX-Timestamp: 0.000000\x0d\x0a\x0d\x0a" := by
    decide
  simp only [viewerBytes, frameWireBytes, Frame.from_jpeg_buf, List.map_cons,
    List.map_nil, List.flatten_cons, List.flatten_nil, List.append_nil, h]
  rw [← hdr]
  simp [List.append_assoc]

/-- C6 witness at the concrete payload of ten zero bytes. -/
theorem viewer_first_bytes_witness :
    viewerBytes [List.replicate 10 0]
      = handshakeBytes
        ++ asciiBytes
            "\x0d\x0a--MJPEGBOUNDARY\x0d\x0aContent-Length: 10\x0d\x0aX-Timestamp: 0.000000\x0d\x0a\x0d\x0a"
        ++ List.replicate 10 0 :=
  viewer_first_bytes (List.replicate 10 0) (by decide)

/-- C10 witness at a concrete live publisher. -/
theorem publisher_never_disconnected_witness :
    (∀ p, MJpeg.update_jpeg (MJpeg.mk ⟨none, true⟩ rfl).relay [9] ≠ SendOutcome.err p)
    ∧ ((MJpeg.try_update_jpeg (MJpeg.mk ⟨none, true⟩ rfl).relay [9]).2 = none
        ∨ (MJpeg.try_update_jpeg (MJpeg.mk ⟨none, true⟩ rfl).relay [9]).2
            = some (TrySendErr.Full [9])) :=
  publisher_never_disconnected (MJpeg.mk ⟨none, true⟩ rfl) [9]

/-- One iteration's outcome in a Connection Handler's streaming loop: the
`recv.lock()` call failed (poisoned mutex), the `buf.recv()` call failed
(`ChannelClosed`, producer side gone), or a frame arrived and the subsequent
socket writes either all succeeded or one failed. -/
inductive LoopEvent where
  | lockFail
  | recvClosed
  | gotFrame (f : Frame) (writeOk : Bool)
deriving DecidableEq

/-- Whether an iteration outcome terminates the handler.  In the source the
two failure arms only `println!` and fall through to the next iteration, while
a failed write `unwrap()` panics, ending that handler thread. -/
def eventKills : LoopEvent → Bool
  | .lockFail => false
  | .recvClosed => false
  | .gotFrame _ ok => !ok

/-- Whether a handler is still running after its handshake write (`handshakeOk`)
and the given sequence of loop-iteration outcomes. -/
def handlerAlive (handshakeOk : Bool) (events : List LoopEvent) : Bool :=
  handshakeOk && !(events.any eventKills)

/-- Liveness of each handler in a pool, every handler a function of its own
handshake result and its own trace only. -/
def handlersAlive (hs : List (Bool × List LoopEvent)) : List Bool :=
  hs.map (fun pr => handlerAlive pr.1 pr.2)

/-- C7: receive failures (`ChannelClosed`) and lock failures never terminate a
Connection Handler — a loop whose iterations are all such failures leaves the
handler alive — whereas any write failure (a frame write, or the handshake
write itself) terminates the handler; and one handler's death is local: the
pool's liveness decomposes pointwise, so it affects no other handler. -/
theorem handler_failure_policy (events : List LoopEvent) :
    (eventKills LoopEvent.lockFail = false ∧ eventKills LoopEvent.recvClosed = false)
    ∧ ((∀ e ∈ events, eventKills e = false) → handlerAlive true events = true)
    ∧ (∀ e ∈ events, eventKills e = true → handlerAlive true events = false)
    ∧ (∀ f, eventKills (LoopEvent.gotFrame f false) = true)
    ∧ handlerAlive false events = false
    ∧ (∀ (pre post : List (Bool × List LoopEvent)) (hs : Bool) (es : List LoopEvent),
        handlersAlive (pre ++ (hs, es) :: post)
          = handlersAlive pre ++ handlerAlive hs es :: handlersAlive post) := by
  refine ⟨⟨rfl, rfl⟩, ?_, ?_, fun f => rfl, rfl, ?_⟩
  · intro hall
    unfold handlerAlive
    have : events.any eventKills = false := by
      rw [List.any_eq_false]
      intro e he
      simp [hall e he]
    rw [this]
    rfl
  · intro e he hk
    unfold handlerAlive
    have : events.any eventKills = true := List.any_eq_true.mpr ⟨e, he, hk⟩
    rw [this]
    rfl
  · intro pre post hs es
    unfold handlersAlive
    rw [List.map_append, List.map_cons]

/-- C7 witness: a handler that only ever saw lock and receive failures is
still alive; one that saw a failed frame write is dead. -/
theorem handler_failure_policy_witness :
    handlerAlive true [LoopEvent.lockFail, LoopEvent.recvClosed] = true
    ∧ handlerAlive true [LoopEvent.gotFrame (Frame.from_jpeg_buf []) false] = false :=
  ⟨(handler_failure_policy [LoopEvent.lockFail, LoopEvent.recvClosed]).2.1 (by decide),
   (handler_failure_policy [LoopEvent.gotFrame (Frame.from_jpeg_buf []) false]).2.2.1
     (LoopEvent.gotFrame (Frame.from_jpeg_buf []) false) (by simp) rfl⟩

/-- What one `server.incoming()` item turned out to be: a connection, or an
accept error. -/
inductive AcceptOutcome where
  | conn
  | acceptErr
deriving DecidableEq

/-- Observable state of `MJpeg::run`'s listener loop: how many handler threads
were spawned for accepted connections, how many accept errors were logged, and
whether the call has returned (`some false` = returned the bind error). -/
structure ListenState where
  handlers : Nat
  loggedAcceptErrs : Nat
  returned : Option Bool
deriving DecidableEq

/-- Processing one `incoming()` item: an accepted connection gets a spawned
handler, an accept error is logged inside its spawned thread and skipped;
neither makes the loop return. -/
def acceptStep (st : ListenState) (a : AcceptOutcome) : ListenState :=
  match a with
  | .conn => { st with handlers := st.handlers + 1 }
  | .acceptErr => { st with loggedAcceptErrs := st.loggedAcceptErrs + 1 }

/-- Method `MJpeg::run` (the spec's `serve`): a bind failure returns the error at
once; otherwise the loop folds over the accepted items forever (the state is
shown after any finite number of them — the trailing `Ok(())` is unreachable
because `incoming()` never ends). -/
def runServe (bindOk : Bool) (accepts : List AcceptOutcome) : ListenState :=
  if bindOk then accepts.foldl acceptStep ⟨0, 0, none⟩
  else ⟨0, 0, some false⟩

theorem foldl_acceptStep (accepts : List AcceptOutcome) : ∀ st : ListenState,
    (accepts.foldl acceptStep st).returned = st.returned
    ∧ (accepts.foldl acceptStep st).handlers
        = st.handlers + (accepts.filter (fun a => decide (a = AcceptOutcome.conn))).length
    ∧ (accepts.foldl acceptStep st).loggedAcceptErrs
        = st.loggedAcceptErrs
          + (accepts.filter (fun a => decide (a = AcceptOutcome.acceptErr))).length := by
  induction accepts with
  | nil => intro st; simp
  | cons a t ih =>
    intro st
    have h2 := ih (acceptStep st a)
    simp only [List.foldl_cons]
    rcases a with _ | _
    · refine ⟨by rw [h2.1]; rfl, ?_, ?_⟩
      · rw [h2.2.1]
        simp [acceptStep, List.filter_cons]
        omega
      · rw [h2.2.2]
        simp [acceptStep, List.filter_cons]
    · refine ⟨by rw [h2.1]; rfl, ?_, ?_⟩
      · rw [h2.2.1]
        simp [acceptStep, List.filter_cons]
      · rw [h2.2.2]
        simp [acceptStep, List.filter_cons]
        omega

/-- C8: `serve` returns an error iff binding the listening address fails; on a
successful bind it never returns after any finite number of accepted items —
each accept failure is logged and skipped while the loop keeps accepting, and
every accepted connection gets its own spawned handler. -/
theorem serve_bind_and_loop (bindOk : Bool) (accepts : List AcceptOutcome) :
    ((runServe bindOk accepts).returned = some false ↔ bindOk = false)
    ∧ (bindOk = true →
        (runServe bindOk accepts).returned = none
        ∧ (runServe bindOk accepts).handlers
            = (accepts.filter (fun a => decide (a = AcceptOutcome.conn))).length
        ∧ (runServe bindOk accepts).loggedAcceptErrs
            = (accepts.filter (fun a => decide (a = AcceptOutcome.acceptErr))).length) := by
  have hf := foldl_acceptStep accepts ⟨0, 0, none⟩
  constructor
  · rcases bindOk with _ | _
    · simp [runServe]
    · simp [runServe, hf.1]
  · intro hb
    subst hb
    simp [runServe, hf.1, hf.2.1, hf.2.2]

/-- C8 witness: with a successful bind, one accepted connection and one accept
error, the loop has not returned, spawned one handler, and logged one error;
with a failed bind the error surfaces. -/
theorem serve_bind_and_loop_witness :
    (runServe true [AcceptOutcome.conn, AcceptOutcome.acceptErr]).returned = none
    ∧ (runServe true [AcceptOutcome.conn, AcceptOutcome.acceptErr]).handlers
        = ([AcceptOutcome.conn, AcceptOutcome.acceptErr].filter
            (fun a => decide (a = AcceptOutcome.conn))).length
    ∧ (runServe true [AcceptOutcome.conn, AcceptOutcome.acceptErr]).loggedAcceptErrs
        = ([AcceptOutcome.conn, AcceptOutcome.acceptErr].filter
            (fun a => decide (a = AcceptOutcome.acceptErr))).length :=
  (serve_bind_and_loop true [AcceptOutcome.conn, AcceptOutcome.acceptErr]).2 rfl

/-- Pointwise update of a viewer-indexed family of received-frame logs. -/
def updateF (f : Nat → List Nat) (v : Nat) (val : List Nat) : Nat → List Nat :=
  fun i => if i = v then val else f i

/-- Trace state of the relay together with the pool of Connection Handlers:
`nextSeq` frames have been published so far (frame `k` is the `k`-th publish),
`slot` is the sequence number sitting in the bounded(1) channel, and `recvd v`
is the ordered log of sequence numbers handler `v` has received so far.  The
receiving handle is shared behind a `Mutex`, so a receive moves the slot's
frame into exactly one handler's log. -/
structure RelaySys where
  nextSeq : Nat
  slot : Option Nat
  recvd : Nat → List Nat

/-- One transition: the producer's publish completes (slot was empty), or the
handler that currently holds the receiver's lock completes a receive, draining
the slot into its own log. -/
inductive SysStep : RelaySys → RelaySys → Prop
  | publish (s : RelaySys) (h : s.slot = none) :
      SysStep s { s with slot := some s.nextSeq, nextSeq := s.nextSeq + 1 }
  | deliver (s : RelaySys) (v k : Nat) (h : s.slot = some k) :
      SysStep s { s with slot := none, recvd := updateF s.recvd v (s.recvd v ++ [k]) }

/-- States reachable from the freshly constructed relay (nothing published,
slot empty, every handler's log empty). -/
inductive SysReachable : RelaySys → Prop
  | init : SysReachable ⟨0, none, fun _ => []⟩
  | step (s s' : RelaySys) : SysReachable s → SysStep s s' → SysReachable s'

/-- The inductive invariant for C9: every log is strictly increasing with
entries below `nextSeq`, the slot (if occupied) holds the most recently
published frame and no log contains it, and no two handlers' logs share an
entry. -/
def SysInv (s : RelaySys) : Prop :=
  (∀ i, (s.recvd i).Pairwise (· < ·))
  ∧ (∀ i x, x ∈ s.recvd i → x < s.nextSeq)
  ∧ (∀ k, s.slot = some k → k + 1 = s.nextSeq ∧ ∀ i, k ∉ s.recvd i)
  ∧ (∀ i j, i ≠ j → ∀ x, x ∈ s.recvd i → x ∉ s.recvd j)

theorem sysInv_init : SysInv ⟨0, none, fun _ => []⟩ := by
  refine ⟨fun i => List.Pairwise.nil, fun i x hx => absurd hx (List.not_mem_nil x), ?_, ?_⟩
  · intro k hk
    simp at hk
  · intro i j _ x hx
    exact absurd hx (List.not_mem_nil x)

theorem sysInv_step (s s' : RelaySys) (hs : SysInv s) (hstep : SysStep s s') :
    SysInv s' := by
  obtain ⟨hpw, hbound, hslot, hdisj⟩ := hs
  cases hstep with
  | publish hempty =>
    refine ⟨hpw, ?_, ?_, hdisj⟩
    · intro i x hx
      exact Nat.lt_succ_of_lt (hbound i x hx)
    · intro k hk
      simp only [Option.some.injEq] at hk
      subst hk
      exact ⟨rfl, fun i hmem => absurd (hbound i _ hmem) (Nat.lt_irrefl _)⟩
  | deliver v k hk =>
    obtain ⟨hk1, hknot⟩ := hslot k hk
    have hklt : k < s.nextSeq := by omega
    refine ⟨?_, ?_, ?_, ?_⟩
    · intro i
      simp only [updateF]
      by_cases hi : i = v
      · rw [if_pos hi]
        rw [List.pairwise_append]
        refine ⟨hpw v, List.pairwise_singleton _ _, ?_⟩
        intro x hx y hy
        simp only [List.mem_singleton] at hy
        rw [hy]
        have hxlt := hbound v x hx
        have hxne : x ≠ k := fun hxk => hknot v (hxk ▸ hx)
        omega
      · rw [if_neg hi]
        exact hpw i
    · intro i x hx
      simp only [updateF] at hx
      by_cases hi : i = v
      · rw [if_pos hi] at hx
        rcases List.mem_append.mp hx with hx | hx
        · exact hbound v x hx
        · simp only [List.mem_singleton] at hx
          subst hx
          exact hklt
      · rw [if_neg hi] at hx
        exact hbound i x hx
    · intro k2 hk2
      simp at hk2
    · intro i j hij x hxi
      simp only [updateF] at hxi ⊢
      by_cases hi : i = v
      · rw [if_pos hi] at hxi
        rw [if_neg (fun hj => hij (hi.trans hj.symm))]
        rcases List.mem_append.mp hxi with hx | hx
        · exact hdisj i j hij x (hi ▸ hx)
        · simp only [List.mem_singleton] at hx
          subst hx
          exact hknot j
      · rw [if_neg hi] at hxi
        by_cases hj : j = v
        · rw [if_pos hj]
          intro hmem
          rcases List.mem_append.mp hmem with hx | hx
          · exact hdisj i j hij x hxi (hj ▸ hx)
          · simp only [List.mem_singleton] at hx
            subst hx
            exact hknot i hxi
        · rw [if_neg hj]
          exact hdisj i j hij x hxi

theorem sysInv_reachable (s : RelaySys) (h : SysReachable s) : SysInv s := by
  induction h with
  | init => exact sysInv_init
  | step s s' _ hstep ih => exact sysInv_step s s' ih hstep

theorem pairwise_lt_sublist_range' :
    ∀ (l : List Nat) (n s : Nat), l.Pairwise (· < ·) → (∀ x ∈ l, s ≤ x ∧ x < s + n) →
      List.Sublist l (List.range' s n) := by
  intro l n
  induction n generalizing l with
  | zero =>
    intro s hpw hb
    rcases l with _ | ⟨a, t⟩
    · exact List.nil_sublist _
    · have := hb a (by simp)
      omega
  | succ m ih =>
    intro s hpw hb
    rw [List.range'_succ]
    rcases l with _ | ⟨a, t⟩
    · exact List.nil_sublist _
    · obtain ⟨hsa, han⟩ := hb a (by simp)
      by_cases ha : a = s
      · subst ha
        refine List.Sublist.cons₂ a (ih t (a + 1) (List.Pairwise.sublist (List.sublist_cons_self a t) hpw) ?_)
        intro x hx
        have hax := List.rel_of_pairwise_cons hpw hx
        have := (hb x (by simp [hx])).2
        omega
      · refine List.Sublist.cons s (ih (a :: t) (s + 1) hpw ?_)
        intro x hx
        rcases List.mem_cons.mp hx with hx1 | hx1
        · subst hx1
          constructor <;> omega
        · have hax := List.rel_of_pairwise_cons hpw hx1
          have := (hb x hx).2
          omega

theorem pairwise_lt_sublist_range (l : List Nat) (n : Nat)
    (hpw : l.Pairwise (· < ·)) (hb : ∀ x ∈ l, x < n) :
    List.Sublist l (List.range n) := by
  rw [List.range_eq_range']
  exact pairwise_lt_sublist_range' l n 0 hpw (fun x hx => ⟨Nat.zero_le x, by
    have := hb x hx
    omega⟩)

/-- C9: in every reachable state of the relay-plus-handlers system, each
handler's received log is a sublist of the published sequence
`0, 1, …, nextSeq-1` — a gap-allowed subsequence, never reordered and never
containing the same frame twice — and no frame ever appears in two different
handlers' logs: every delivered frame went to exactly one handler. -/
theorem frames_delivered_to_one_viewer (s : RelaySys) (h : SysReachable s) :
    (∀ v, List.Sublist (s.recvd v) (List.range s.nextSeq))
    ∧ (∀ v, (s.recvd v).Nodup)
    ∧ (∀ v w, v ≠ w → ∀ x, x ∈ s.recvd v → x ∉ s.recvd w) := by
  obtain ⟨hpw, hbound, _, hdisj⟩ := sysInv_reachable s h
  refine ⟨?_, ?_, hdisj⟩
  · intro v
    exact pairwise_lt_sublist_range (s.recvd v) s.nextSeq (hpw v) (hbound v)
  · intro v
    exact (hpw v).imp (fun hab => Nat.ne_of_lt hab)

/-- C9 witness: after one publish and its delivery to handler 0, handler 0's
log is `[0]`, a nodup sublist of the published sequence, and no other
handler's log contains frame 0. -/
theorem frames_delivered_to_one_viewer_witness :
    (∀ v, List.Sublist ((⟨1, none, updateF (fun _ => []) 0 [0]⟩ : RelaySys).recvd v)
        (List.range (⟨1, none, updateF (fun _ => []) 0 [0]⟩ : RelaySys).nextSeq))
    ∧ (∀ v, ((⟨1, none, updateF (fun _ => []) 0 [0]⟩ : RelaySys).recvd v).Nodup)
    ∧ (∀ v w, v ≠ w → ∀ x,
        x ∈ (⟨1, none, updateF (fun _ => []) 0 [0]⟩ : RelaySys).recvd v
        → x ∉ (⟨1, none, updateF (fun _ => []) 0 [0]⟩ : RelaySys).recvd w) :=
  frames_delivered_to_one_viewer ⟨1, none, updateF (fun _ => []) 0 [0]⟩
    (SysReachable.step _ _
      (SysReachable.step _ _ SysReachable.init (SysStep.publish _ rfl))
      (SysStep.deliver _ 0 0 rfl))

end MjpegRs

